import Mathlib

/-!
Shallow embedding of the gph-api authorization and build-lifecycle subsystem
(src/app/auth.py, src/app/api/build.py, src/app/api/team.py,
src/app/api/organization.py, src/app/models).  Database tables are modelled
as lists of row structures, the object store as an oracle from keys to a
success flag, randomness and clocks as explicit parameters.  HTTPException
outcomes are modelled by the ApiError type, carrying the status code and the
data the handlers attach.
-/

namespace GphApi

/-- Row of the user table (src/app/models/user.py, class User).  Primary keys
are always populated on stored rows, so ids are plain Nat here. -/
structure User where
  id : Nat
  username : String
  email : String
  hashed_password : String
  full_name : Option String
  is_active : Bool
  role_id : Option Nat
deriving Repr, DecidableEq

/-- Row of the role table (src/app/models/user.py, class Role). -/
structure Role where
  id : Nat
  name : String
  description : Option String
deriving Repr, DecidableEq

/-- Row of the permission table (src/app/models/user.py, class Permission). -/
structure Permission where
  id : Nat
  name : String
  description : Option String
deriving Repr, DecidableEq

/-- Row of the rolepermission link table (src/app/models/user.py). -/
structure RolePermission where
  role_id : Nat
  permission_id : Nat
deriving Repr, DecidableEq

/-- Row of the team table (src/app/models/team.py, class Team). -/
structure Team where
  id : Nat
  name : String
  description : Option String
  organization_id : Option Nat
  max_builds : Nat
deriving Repr, DecidableEq

/-- Row of the teammember link table (src/app/models/team.py).  The composite
primary key is (team_id, user_id). -/
structure TeamMember where
  team_id : Nat
  user_id : Nat
  is_owner : Bool
deriving Repr, DecidableEq

/-- Row of the organizationmemberlink table (src/app/models/organization.py). -/
structure OrganizationMemberLink where
  organization_id : Nat
  user_id : Nat
deriving Repr, DecidableEq

/-- Row of the build table (src/app/models/build.py, class Build).
created_at and updated_at are Nat timestamps. -/
structure Build where
  id : Nat
  name : String
  version : String
  path : String
  size : Nat
  short_id : String
  created_at : Nat
  updated_at : Nat
  created_by : Nat
  team_id : Nat
deriving Repr, DecidableEq

/-- Authenticated principal (src/app/auth.py, class AuthUser). -/
structure AuthUser where
  username : String
  hashed_password : String
  email : Option String
  full_name : Option String
  disabled : Bool
  permissions : List String
deriving Repr, DecidableEq

/-- HTTPException outcomes raised by the embedded handlers, tagged with the
data the source attaches to them. -/
inductive ApiError where
  | notFound (detail : String)
  | forbidden (detail : String)
  | badRequest (detail : String)
  | credentials
  | inactiveUser
  | quotaExceeded (current_builds : Nat) (max_builds : Nat)
  | storageEvictionFailed (current_builds : Nat) (max_builds : Nat)
  | allocationExhausted
  | storageUnavailable (detail : String)
deriving Repr, DecidableEq

/-- The HTTP status code each error is raised with in the source. -/
def ApiError.status : ApiError → Nat
  | .notFound _ => 404
  | .forbidden _ => 403
  | .badRequest _ => 400
  | .credentials => 401
  | .inactiveUser => 400
  | .quotaExceeded _ _ => 409
  | .storageEvictionFailed _ _ => 500
  | .allocationExhausted => 500
  | .storageUnavailable _ => 500

/-- The joined rows of select(User, Role).where(User.username == username,
User.role_id == Role.id) in src/app/auth.py get_user.  A user whose role_id
is none matches no Role row, so the inner join yields nothing for it. -/
def userRoleRows (users : List User) (roles : List Role) (username : String) :
    List (User × Role) :=
  (users.filter (fun u => u.username == username)).flatMap
    (fun u => (roles.filter (fun r => u.role_id == some r.id)).map (fun r => (u, r)))

/-- src/app/auth.py get_user (lines 43-72): first joined (User, Role) row or
a 404; permissions are the Permission rows joined through RolePermission on
the role id. -/
def get_user (users : List User) (roles : List Role)
    (rolePerms : List RolePermission) (perms : List Permission)
    (username : String) : Except ApiError AuthUser :=
  match (userRoleRows users roles username).head? with
  | none => .error (.notFound ("User not found: " ++ username))
  | some (user_db, role) =>
    let role_permissions :=
      perms.flatMap (fun p =>
        (rolePerms.filter (fun rp =>
          rp.permission_id == p.id && rp.role_id == role.id)).map (fun _ => p))
    Except.ok {
      username := user_db.username
      hashed_password := user_db.hashed_password
      email := some user_db.email
      full_name := user_db.full_name
      disabled := !user_db.is_active
      permissions := role_permissions.map (fun p => p.name) }

/-- src/app/auth.py get_current_active_user (lines 120-125): a disabled user
is rejected with status 400 and detail Inactive user. -/
def get_current_active_user (current_user : AuthUser) : Except ApiError AuthUser :=
  if current_user.disabled then .error .inactiveUser else .ok current_user

/-- src/app/auth.py PermissionChecker.call (lines 131-141), list case: allow
when the user holds at least one of the required permissions (OR logic),
otherwise a 403. -/
def permissionCheck (permission : List String) (current_user : AuthUser) :
    Except ApiError Unit :=
  if permission.any (fun perm => current_user.permissions.contains perm) then .ok ()
  else .error (.forbidden "Operation not permitted")

/-- The access gate as wired by the FastAPI dependency chain:
get_current_active_user feeding PermissionChecker. -/
def accessGate (required : List String) (current_user : AuthUser) :
    Except ApiError Unit :=
  match get_current_active_user current_user with
  | .error e => .error e
  | .ok u => permissionCheck required u

/-- JWT payload as built by create_access_token: optional subject claim and
an absolute expiry timestamp in seconds. -/
structure JwtPayload where
  sub : Option String
  exp : Nat
deriving Repr, DecidableEq

/-- A signed token: payload plus its signature.  The signature of a keyed MAC
is determined by the key and the message, so it is modelled as that pair;
verification recomputes it from the presented payload and the server key. -/
structure Jwt where
  payload : JwtPayload
  sig : String × JwtPayload
deriving Repr, DecidableEq

/-- jwt.encode: attach the MAC of the payload under the key. -/
def jwtEncode (payload : JwtPayload) (key : String) : Jwt :=
  { payload := payload, sig := (key, payload) }

/-- PyJWT decode errors.  In PyJWT, ExpiredSignatureError is a subclass of
InvalidTokenError, so a handler catching InvalidTokenError catches both. -/
inductive JwtError where
  | expiredSignature
  | invalidToken
deriving Repr, DecidableEq

/-- jwt.decode with the default options: reject a bad signature, then reject
the token when the embedded exp claim is in the past (exp < now). -/
def jwtDecode (token : Jwt) (key : String) (now : Nat) :
    Except JwtError JwtPayload :=
  if token.sig ≠ (key, token.payload) then .error .invalidToken
  else if token.payload.exp < now then .error .expiredSignature
  else .ok token.payload

/-- src/app/auth.py create_access_token (lines 109-118): data is the sub
claim, expires_delta in seconds (none means the 15 minute default). -/
def create_access_token (sub : Option String) (expires_delta : Option Nat)
    (now : Nat) (key : String) : Jwt :=
  jwtEncode { sub := sub, exp := now + expires_delta.getD 900 } key

/-- src/app/auth.py get_current_user (lines 88-106): the except
InvalidTokenError clause catches every decode failure, the
ExpiredSignatureError subclass included, and a missing sub claim is the same
credentials exception; the user is then resolved with get_user, whose
NotFound propagates (the user is None branch is dead code since get_user
raises). -/
def get_current_user (users : List User) (roles : List Role)
    (rolePerms : List RolePermission) (perms : List Permission)
    (token : Jwt) (key : String) (now : Nat) : Except ApiError AuthUser :=
  match jwtDecode token key now with
  | .error _ => .error .credentials
  | .ok payload =>
    match payload.sub with
    | none => .error .credentials
    | some username => get_user users roles rolePerms perms username

/-- Request body of build creation (src/app/api/build.py, BuildCreate). -/
structure BuildCreate where
  name : String
  version : String
  team_id : Nat
deriving Repr, DecidableEq

/-- string.ascii_letters ++ string.digits, the 62 character alphabet used by
generate_short_id (lowercase, uppercase, digits). -/
def asciiAlphabet : List Char :=
  (List.range 26).map (fun i => Char.ofNat (97 + i)) ++
  (List.range 26).map (fun i => Char.ofNat (65 + i)) ++
  (List.range 10).map (fun i => Char.ofNat (48 + i))

/-- src/app/api/build.py generate_short_id (lines 112-114):
random.choices(alphabet, k=length); the randomness is supplied as one draw
per position, reduced modulo the alphabet size. -/
def generate_short_id (draws : List Nat) (length : Nat := 6) : String :=
  String.mk ((List.range length).map (fun i =>
    asciiAlphabet.getD (draws.getD i 0 % 62) 'a'))

/-- src/app/api/build.py generate_unique_short_id (lines 116-127): up to 100
attempts, returning the first candidate not equal to the short_id of any
existing Build; none models the 500 raised on exhaustion.  draws k supplies
the random draws of attempt k. -/
def generate_unique_short_id (draws : Nat → List Nat) (existing : List String) :
    Option String :=
  (List.range 100).findSome? (fun k =>
    let short_id := generate_short_id (draws k) 6
    if short_id ∈ existing then none else some short_id)

/-- src/app/api/build.py generate_s3_path (lines 61-67); the timestamp and
uuid part of the filename is the supplied suffix. -/
def generate_s3_path (team_id : Nat) (build_name : String) (version : String)
    (suffix : String) : String :=
  "builds/team_" ++ toString team_id ++ "/" ++ build_name ++ "_" ++ version ++ "_" ++ suffix

/-- session.get(Team, team_id). -/
def findTeam (teams : List Team) (team_id : Nat) : Option Team :=
  teams.find? (fun t => t.id == team_id)

/-- select(User).where(User.username == username).first(). -/
def findUserByUsername (users : List User) (username : String) : Option User :=
  users.find? (fun u => u.username == username)

/-- session.get(User, user_id). -/
def findUserById (users : List User) (user_id : Nat) : Option User :=
  users.find? (fun u => u.id == user_id)

/-- select(User).where(or_(User.email == identifier, User.username ==
identifier)).first(), the lookup used by the batch handlers. -/
def findUserByIdentifier (users : List User) (identifier : String) : Option User :=
  users.find? (fun u => u.email == identifier || u.username == identifier)

/-- src/app/api/build.py check_user_team_membership (lines 91-99). -/
def check_user_team_membership (members : List TeamMember)
    (user_id team_id : Nat) : Bool :=
  members.any (fun m => m.user_id == user_id && m.team_id == team_id)

/-- src/app/dependencies/team.py check_user_team_ownership. -/
def check_user_team_ownership (members : List TeamMember)
    (user_id team_id : Nat) : Bool :=
  members.any (fun m => m.user_id == user_id && m.team_id == team_id && m.is_owner)

/-- The composite-primary-key test of a teammember row against
(team_id, user_id), the where clause of the membership lookups. -/
def memberKey (team_id user_id : Nat) (m : TeamMember) : Bool :=
  m.team_id == team_id && m.user_id == user_id

/-- select(Build).where(Build.team_id == team_id).all(). -/
def teamBuilds (builds : List Build) (team_id : Nat) : List Build :=
  builds.filter (fun b => b.team_id == team_id)

/-- select(Build).where(Build.team_id ==
team_id).order_by(Build.created_at.asc()).first(): the first build of the
team minimal by created_at (stable in table order). -/
def oldestBuild (builds : List Build) (team_id : Nat) : Option Build :=
  (teamBuilds builds team_id).foldl (fun acc b =>
    match acc with
    | none => some b
    | some a => if b.created_at < a.created_at then some b else some a) none

/-- session.delete of a build row: the row with that primary key is removed. -/
def removeBuildById (builds : List Build) (build_id : Nat) : List Build :=
  builds.filter (fun b => !(b.id == build_id))

/-- Outcome of the create_build handler: the HTTP result, the build table
after the call, and the keys whose deletion was requested from the object
store (in order). -/
structure BuildCreateOutcome where
  result : Except ApiError Build
  builds : List Build
  storage_deletes : List String
deriving Repr

/-- src/app/api/build.py create_build (lines 129-246).  storageDelete is the
object-store oracle (true = delete_object succeeds, false = ClientError);
presignOk is the outcome of generate_presigned_upload_url; draws feeds the
short-id allocator; now, fresh_id and path_suffix stand for the clock, the
database-assigned id and the random part of the storage path. -/
def create_build (teams : List Team) (users : List User)
    (members : List TeamMember) (builds : List Build)
    (current_user : AuthUser) (build_create : BuildCreate)
    (override_quota : Bool)
    (storageDelete : String → Bool) (presignOk : Bool)
    (draws : Nat → List Nat)
    (now : Nat) (fresh_id : Nat) (path_suffix : String) : BuildCreateOutcome :=
  match findTeam teams build_create.team_id with
  | none => ⟨.error (.notFound "Team not found"), builds, []⟩
  | some team =>
  match findUserByUsername users current_user.username with
  | none => ⟨.error (.notFound "Current user not found"), builds, []⟩
  | some user =>
  if !(check_user_team_membership members user.id build_create.team_id
        || current_user.permissions.contains "build.superadmin") then
    ⟨.error (.forbidden "User must be a member of the team or have superadmin permission to create builds"), builds, []⟩
  else
  let current_builds := teamBuilds builds build_create.team_id
  if team.max_builds ≤ current_builds.length ∧ override_quota = false then
    ⟨.error (.quotaExceeded current_builds.length team.max_builds), builds, []⟩
  else
    match (if override_quota = true ∧ team.max_builds ≤ current_builds.length then
             match oldestBuild builds build_create.team_id with
             | some oldest_build =>
               if storageDelete oldest_build.path then
                 -- storage delete succeeded: delete the row and commit
                 (Except.ok (removeBuildById builds oldest_build.id), [oldest_build.path])
               else
                 -- ClientError: abort with a 500, the row is not deleted
                 (Except.error (ApiError.storageEvictionFailed current_builds.length team.max_builds), [oldest_build.path])
             | none => (Except.ok builds, [])
           else (Except.ok builds, [])) with
    | (Except.error e, dels) => ⟨.error e, builds, dels⟩
    | (Except.ok builds1, dels) =>
      match generate_unique_short_id draws (builds1.map (fun b => b.short_id)) with
      | none => ⟨.error .allocationExhausted, builds1, dels⟩
      | some short_id =>
        let db_build : Build := {
          id := fresh_id
          name := build_create.name
          version := build_create.version
          path := generate_s3_path build_create.team_id build_create.name
            build_create.version path_suffix
          size := 0
          short_id := short_id
          created_at := now
          updated_at := now
          created_by := user.id
          team_id := build_create.team_id }
        let builds2 := builds1 ++ [db_build]
        if presignOk then ⟨.ok db_build, builds2, dels⟩
        else ⟨.error (.storageUnavailable "Failed to generate upload URL"), builds2, dels⟩

/-- Outcome of the delete_build handler. -/
structure BuildDeleteOutcome where
  result : Except ApiError Unit
  builds : List Build
  storage_deletes : List String
deriving Repr

/-- src/app/api/build.py delete_build (lines 487-532): the ClientError from
delete_object is caught and only logged, then the row is deleted
unconditionally; the storageDelete oracle outcome is therefore ignored. -/
def delete_build (users : List User) (members : List TeamMember)
    (builds : List Build) (current_user : AuthUser) (build_id : Nat)
    (storageDelete : String → Bool) : BuildDeleteOutcome :=
  match builds.find? (fun b => b.id == build_id) with
  | none => ⟨.error (.notFound "Build not found"), builds, []⟩
  | some build =>
  match findUserByUsername users current_user.username with
  | none => ⟨.error (.notFound "Current user not found"), builds, []⟩
  | some user =>
  if !(check_user_team_membership members user.id build.team_id
        || current_user.permissions.contains "build.superadmin") then
    ⟨.error (.forbidden "User must be a member of the team or have superadmin permission to delete builds"), builds, []⟩
  else
    let _s3ok := storageDelete build.path
    ⟨.ok (), removeBuildById builds build_id, [build.path]⟩

/-- The owner rows of a team: select(TeamMember).where(team_id, is_owner ==
True).all(). -/
def ownerRows (members : List TeamMember) (team_id : Nat) : List TeamMember :=
  members.filter (fun m => m.team_id == team_id && m.is_owner)

/-- session.delete of a team membership row, keyed by the composite primary
key (team_id, user_id). -/
def removeMember (members : List TeamMember) (team_id user_id : Nat) :
    List TeamMember :=
  members.filter (fun m => !(memberKey team_id user_id m))

/-- Outcome of a handler mutating the teammember table. -/
structure TeamMembersOutcome where
  result : Except ApiError Unit
  members : List TeamMember
deriving Repr

/-- src/app/api/team.py remove_user_from_team (lines 254-326). -/
def remove_user_from_team (teams : List Team) (users : List User)
    (members : List TeamMember) (current_user : AuthUser)
    (team_id user_id : Nat) : TeamMembersOutcome :=
  match findTeam teams team_id with
  | none => ⟨.error (.notFound "Team not found"), members⟩
  | some _team =>
  match findUserByUsername users current_user.username with
  | none => ⟨.error (.notFound "Current user not found"), members⟩
  | some current_user_db =>
  if !(current_user.permissions.contains "team.superadmin"
        || check_user_team_ownership members current_user_db.id team_id) then
    ⟨.error (.forbidden "Only team owners or superadmins can remove users from the team"), members⟩
  else
  match findUserById users user_id with
  | none => ⟨.error (.notFound "User not found"), members⟩
  | some _user =>
  match members.find? (memberKey team_id user_id) with
  | none => ⟨.error (.notFound "User is not a member of this team"), members⟩
  | some team_member =>
    if team_member.is_owner = true ∧ (ownerRows members team_id).length ≤ 1 then
      ⟨.error (.badRequest "Cannot remove the last owner from the team"), members⟩
    else
      ⟨.ok (), removeMember members team_id user_id⟩

/-- Batch result record (src/app/models/team.py, BatchOperationResult);
failed entries are (identifier, reason) pairs. -/
structure BatchOperationResult where
  successful : List String
  failed : List (String × String)
  total_processed : Nat
  successful_count : Nat
  failed_count : Nat
deriving Repr, DecidableEq

/-- One iteration of the loop in batch_remove_users_from_team
(src/app/api/team.py lines 496-551).  The session autoflushes pending
deletes before each query, so the table state is threaded through the
fold. -/
def batchRemoveStep (users : List User) (team_id : Nat)
    (acc : List TeamMember × List String × List (String × String))
    (identifier : String) :
    List TeamMember × List String × List (String × String) :=
  let (members, successful, failed) := acc
  match findUserByIdentifier users identifier with
  | none => (members, successful, failed ++ [(identifier, "User not found")])
  | some user =>
    match members.find? (memberKey team_id user.id) with
    | none => (members, successful, failed ++ [(identifier, "User is not a member of this team")])
    | some team_member =>
      if team_member.is_owner = true ∧ (ownerRows members team_id).length ≤ 1 then
        (members, successful, failed ++ [(identifier, "Cannot remove the last owner from the team")])
      else
        (removeMember members team_id user.id, successful ++ [identifier], failed)

/-- Outcome of a batch handler on the teammember table. -/
structure BatchOutcome where
  result : Except ApiError BatchOperationResult
  members : List TeamMember
deriving Repr

/-- src/app/api/team.py batch_remove_users_from_team (lines 461-562). -/
def batch_remove_users_from_team (teams : List Team) (users : List User)
    (members : List TeamMember) (current_user : AuthUser)
    (team_id : Nat) (identifiers : List String) : BatchOutcome :=
  match findTeam teams team_id with
  | none => ⟨.error (.notFound "Team not found"), members⟩
  | some _team =>
  match findUserByUsername users current_user.username with
  | none => ⟨.error (.notFound "Current user not found"), members⟩
  | some current_user_db =>
  if !(current_user.permissions.contains "team.superadmin"
        || check_user_team_ownership members current_user_db.id team_id) then
    ⟨.error (.forbidden "Only team owners or superadmins can remove users from the team"), members⟩
  else
    let folded := identifiers.foldl (batchRemoveStep users team_id) (members, [], [])
    ⟨.ok {
      successful := folded.2.1
      failed := folded.2.2
      total_processed := identifiers.length
      successful_count := folded.2.1.length
      failed_count := folded.2.2.length }, folded.1⟩

/-- One iteration of the loop in batch_add_users_to_team
(src/app/api/team.py lines 392-448); organization_id is the team row field.
The org-membership failure message is the source message minus its
apostrophe. -/
def batchAddTeamStep (users : List User) (orgLinks : List OrganizationMemberLink)
    (team_id : Nat) (organization_id : Option Nat) (is_owner : Bool)
    (acc : List TeamMember × List String × List (String × String))
    (identifier : String) :
    List TeamMember × List String × List (String × String) :=
  let (members, successful, failed) := acc
  match findUserByIdentifier users identifier with
  | none => (members, successful, failed ++ [(identifier, "User not found")])
  | some user =>
    let orgOk :=
      match organization_id with
      | none => true
      | some org_id =>
        orgLinks.any (fun l => l.organization_id == org_id && l.user_id == user.id)
    if !orgOk then
      (members, successful, failed ++ [(identifier, "User must be a member of the organization of the team before being added to the team")])
    else if members.any (fun m => m.team_id == team_id && m.user_id == user.id) then
      (members, successful, failed ++ [(identifier, "User is already a member of this team")])
    else
      (members ++ [{ team_id := team_id, user_id := user.id, is_owner := is_owner }],
       successful ++ [identifier], failed)

/-- src/app/api/team.py batch_add_users_to_team (lines 357-459). -/
def batch_add_users_to_team (teams : List Team) (users : List User)
    (orgLinks : List OrganizationMemberLink) (members : List TeamMember)
    (current_user : AuthUser) (team_id : Nat)
    (identifiers : List String) (is_owner : Bool) : BatchOutcome :=
  match findTeam teams team_id with
  | none => ⟨.error (.notFound "Team not found"), members⟩
  | some team =>
  match findUserByUsername users current_user.username with
  | none => ⟨.error (.notFound "Current user not found"), members⟩
  | some current_user_db =>
  if !(current_user.permissions.contains "team.superadmin"
        || check_user_team_ownership members current_user_db.id team_id) then
    ⟨.error (.forbidden "Only team owners or superadmins can add users to the team"), members⟩
  else
    let folded := identifiers.foldl
      (batchAddTeamStep users orgLinks team_id team.organization_id is_owner)
      (members, [], [])
    ⟨.ok {
      successful := folded.2.1
      failed := folded.2.2
      total_processed := identifiers.length
      successful_count := folded.2.1.length
      failed_count := folded.2.2.length }, folded.1⟩

/-- Row of the organization table (src/app/models/organization.py). -/
structure Organization where
  id : Nat
  name : String
  description : Option String
deriving Repr, DecidableEq

/-- One iteration of the loop in batch_add_users_to_organization
(src/app/api/organization.py lines 233-273). -/
def batchAddOrgStep (users : List User) (organization : Organization)
    (acc : List OrganizationMemberLink × List String × List (String × String))
    (identifier : String) :
    List OrganizationMemberLink × List String × List (String × String) :=
  let (links, successful, failed) := acc
  match findUserByIdentifier users identifier with
  | none => (links, successful, failed ++ [(identifier, "User not found")])
  | some user =>
    if links.any (fun l => l.organization_id == organization.id && l.user_id == user.id) then
      (links, successful, failed ++ [(identifier, "User is already a member of this organization")])
    else
      (links ++ [{ organization_id := organization.id, user_id := user.id }],
       successful ++ [identifier], failed)

/-- Outcome of the organization batch-add handler. -/
structure OrgBatchOutcome where
  result : BatchOperationResult
  links : List OrganizationMemberLink
deriving Repr, DecidableEq

/-- src/app/api/organization.py batch_add_users_to_organization (lines
219-284); the organization row has already been resolved from its
identifier by get_organization_by_id_or_name. -/
def batch_add_users_to_organization (users : List User)
    (links : List OrganizationMemberLink) (organization : Organization)
    (identifiers : List String) : OrgBatchOutcome :=
  let folded := identifiers.foldl (batchAddOrgStep users organization) (links, [], [])
  ⟨{ successful := folded.2.1
     failed := folded.2.2
     total_processed := identifiers.length
     successful_count := folded.2.1.length
     failed_count := folded.2.2.length }, folded.1⟩

/-! ### Helper lemmas -/

/-- If a Boolean predicate holds at most once in a list, any two members
satisfying it are equal. -/
theorem countP_le_one_eq {α : Type} {p : α → Bool} {l : List α}
    (h : l.countP p ≤ 1) {a b : α} (ha : a ∈ l) (hpa : p a = true)
    (hb : b ∈ l) (hpb : p b = true) : a = b := by
  induction l with
  | nil => cases ha
  | cons x t ih =>
    rw [List.countP_cons] at h
    rcases List.mem_cons.mp ha with rfl | ha' <;>
      rcases List.mem_cons.mp hb with rfl | hb'
    · rfl
    · exfalso
      have h1 : 0 < t.countP p := List.countP_pos_iff.mpr ⟨b, hb', hpb⟩
      simp only [hpa, if_true] at h
      omega
    · exfalso
      have h1 : 0 < t.countP p := List.countP_pos_iff.mpr ⟨a, ha', hpa⟩
      simp only [hpb, if_true] at h
      omega
    · exact ih (le_trans (Nat.le_add_right _ _) h) ha' hb'

/-- countP splits across an auxiliary Boolean test. -/
theorem countP_split {α : Type} (p q : α → Bool) (l : List α) :
    l.countP p
      = l.countP (fun a => p a && q a) + l.countP (fun a => p a && !(q a)) := by
  induction l with
  | nil => rfl
  | cons x t ih =>
    simp only [List.countP_cons, ih]
    cases hp : p x <;> cases hq : q x <;> simp [hp, hq] <;> omega

/-- Shape of one batch-loop iteration: it either appends one failure record
for the processed identifier or appends the identifier to the successes,
never touching the earlier tallies. -/
def BatchStepShape {σ : Type}
    (step : σ × List String × List (String × String) → String →
      σ × List String × List (String × String)) : Prop :=
  ∀ acc x, (∃ r, (step acc x).2 = (acc.2.1, acc.2.2 ++ [(x, r)]))
    ∨ (step acc x).2 = (acc.2.1 ++ [x], acc.2.2)

/-- Folding a batch step over the identifiers classifies every identifier
exactly once and draws successes and failure records from the input list. -/
theorem batch_fold_accounting {σ : Type}
    {step : σ × List String × List (String × String) → String →
      σ × List String × List (String × String)}
    (hstep : BatchStepShape step) (ids : List String)
    (init : σ × List String × List (String × String)) :
    (ids.foldl step init).2.1.length + (ids.foldl step init).2.2.length
        = init.2.1.length + init.2.2.length + ids.length
    ∧ (∀ s ∈ (ids.foldl step init).2.1, s ∈ init.2.1 ∨ s ∈ ids)
    ∧ (∀ pr ∈ (ids.foldl step init).2.2, pr ∈ init.2.2 ∨ pr.1 ∈ ids) := by
  induction ids generalizing init with
  | nil =>
    exact ⟨by simp, fun s hs => Or.inl hs, fun pr hpr => Or.inl hpr⟩
  | cons x t ih =>
    obtain ⟨ihl, ihs, ihf⟩ := ih (step init x)
    rcases hstep init x with ⟨r, heq⟩ | heq
    · have h1 : (step init x).2.1 = init.2.1 := by rw [heq]
      have h2 : (step init x).2.2 = init.2.2 ++ [(x, r)] := by rw [heq]
      refine ⟨?_, ?_, ?_⟩
      · simp only [List.foldl_cons, ihl, h1, h2]
        simp [List.length_append]
        omega
      · intro s hs
        rcases ihs s hs with hs' | hs'
        · rw [h1] at hs'
          exact Or.inl hs'
        · exact Or.inr (List.mem_cons_of_mem _ hs')
      · intro pr hpr
        rcases ihf pr hpr with hpr' | hpr'
        · rw [h2] at hpr'
          rcases List.mem_append.mp hpr' with h | h
          · exact Or.inl h
          · simp only [List.mem_singleton] at h
            subst h
            exact Or.inr (List.mem_cons_self _ _)
        · exact Or.inr (List.mem_cons_of_mem _ hpr')
    · have h1 : (step init x).2.1 = init.2.1 ++ [x] := by rw [heq]
      have h2 : (step init x).2.2 = init.2.2 := by rw [heq]
      refine ⟨?_, ?_, ?_⟩
      · simp only [List.foldl_cons, ihl, h1, h2]
        simp [List.length_append]
        omega
      · intro s hs
        rcases ihs s hs with hs' | hs'
        · rw [h1] at hs'
          rcases List.mem_append.mp hs' with h | h
          · exact Or.inl h
          · simp only [List.mem_singleton] at h
            subst h
            exact Or.inr (List.mem_cons_self _ _)
        · exact Or.inr (List.mem_cons_of_mem _ hs')
      · intro pr hpr
        rcases ihf pr hpr with hpr' | hpr'
        · rw [h2] at hpr'
          exact Or.inl hpr'
        · exact Or.inr (List.mem_cons_of_mem _ hpr')

/-- The accumulator step of oldestBuild, named for reasoning. -/
def oldestPick (acc : Option Build) (b : Build) : Option Build :=
  match acc with
  | none => some b
  | some a => if b.created_at < a.created_at then some b else some a

/-- The fold underlying oldestBuild returns an element of the list (or the
starting accumulator) that is minimal for created_at. -/
theorem oldestPick_foldl_spec (l : List Build) :
    ∀ (acc : Option Build) (m : Build), l.foldl oldestPick acc = some m →
      (acc = some m ∨ m ∈ l)
      ∧ (∀ a, acc = some a → m.created_at ≤ a.created_at)
      ∧ (∀ b ∈ l, m.created_at ≤ b.created_at) := by
  induction l with
  | nil =>
    intro acc m h
    refine ⟨Or.inl h, ?_, by simp⟩
    intro a ha
    rw [ha] at h
    cases h
    exact le_rfl
  | cons x t ih =>
    intro acc m h
    obtain ⟨hmem, hacc, hall⟩ := ih (oldestPick acc x) m h
    have hpickle : ∀ c, oldestPick acc x = some c → m.created_at ≤ c.created_at :=
      hacc
    have hxle : m.created_at ≤ x.created_at := by
      cases acc with
      | none => exact hpickle x rfl
      | some a0 =>
        by_cases hlt : x.created_at < a0.created_at
        · exact hpickle x (by simp [oldestPick, hlt])
        · have := hpickle a0 (by simp [oldestPick, hlt])
          omega
    refine ⟨?_, ?_, ?_⟩
    · rcases hmem with h' | h'
      · cases acc with
        | none =>
          simp only [oldestPick] at h'
          cases h'
          exact Or.inr (List.mem_cons_self _ _)
        | some a0 =>
          by_cases hlt : x.created_at < a0.created_at
          · simp only [oldestPick, if_pos hlt] at h'
            cases h'
            exact Or.inr (List.mem_cons_self _ _)
          · simp only [oldestPick, if_neg hlt] at h'
            exact Or.inl h'
      · exact Or.inr (List.mem_cons_of_mem _ h')
    · intro a ha
      subst ha
      cases' Nat.lt_or_ge x.created_at a.created_at with hlt hge
      · have := hpickle x (by simp [oldestPick, hlt])
        omega
      · have := hpickle a (by simp [oldestPick, Nat.not_lt.mpr hge])
        omega
    · intro b hb
      rcases List.mem_cons.mp hb with rfl | hb'
      · exact hxle
      · exact hall b hb'

/-- The selected eviction victim belongs to the queried team and is minimal
by created_at among that team's builds. -/
theorem oldestBuild_spec {builds : List Build} {team_id : Nat} {ob : Build}
    (h : oldestBuild builds team_id = some ob) :
    ob ∈ teamBuilds builds team_id
    ∧ ∀ b ∈ teamBuilds builds team_id, ob.created_at ≤ b.created_at := by
  have h' : (teamBuilds builds team_id).foldl oldestPick none = some ob := by
    rw [← h]
    rfl
  obtain ⟨hmem, _, hall⟩ := oldestPick_foldl_spec _ none ob h'
  rcases hmem with h'' | h''
  · cases h''
  · exact ⟨h'', hall⟩

/-- Table invariant: the composite primary key (team_id, user_id) identifies
at most one teammember row. -/
def MemberKeyUnique (members : List TeamMember) : Prop :=
  ∀ team_id user_id, members.countP (memberKey team_id user_id) ≤ 1

/-- Key uniqueness survives any row deletion (filtering). -/
theorem memberKeyUnique_filter {members : List TeamMember}
    (hKU : MemberKeyUnique members) (q : TeamMember → Bool) :
    MemberKeyUnique (members.filter q) :=
  fun tid uid =>
    le_trans (List.Sublist.countP_le _ (List.filter_sublist _)) (hKU tid uid)

/-- ownerRows length as a countP. -/
theorem ownerRows_length (members : List TeamMember) (team_id : Nat) :
    (ownerRows members team_id).length
      = members.countP (fun m => m.team_id == team_id && m.is_owner) :=
  (List.countP_eq_length_filter _ _).symm

/-- Deleting a membership row behind the last-owner guard keeps the owner
count of the team positive. -/
theorem removeMember_owner_count_ge
    {members : List TeamMember} {team_id user_id : Nat} {tm : TeamMember}
    (hKU : MemberKeyUnique members)
    (hfind : members.find? (memberKey team_id user_id) = some tm)
    (hguard : ¬(tm.is_owner = true ∧ (ownerRows members team_id).length ≤ 1))
    (hpos : 1 ≤ (ownerRows members team_id).length) :
    1 ≤ (ownerRows (removeMember members team_id user_id) team_id).length := by
  have htm_mem := List.mem_of_find?_eq_some hfind
  have htm_key := List.find?_some hfind
  have hcount :
      (ownerRows (removeMember members team_id user_id) team_id).length
        = members.countP (fun m =>
            (m.team_id == team_id && m.is_owner) && !(memberKey team_id user_id m)) := by
    rw [ownerRows_length, removeMember, List.countP_filter]
  by_cases howner : tm.is_owner = true
  · have h2 : 2 ≤ (ownerRows members team_id).length := by
      rcases Nat.lt_or_ge 1 (ownerRows members team_id).length with h | h
      · omega
      · exact absurd ⟨howner, h⟩ hguard
    have hsplit := countP_split (fun m => m.team_id == team_id && m.is_owner)
      (memberKey team_id user_id) members
    have hone : members.countP (fun m =>
        (m.team_id == team_id && m.is_owner) && memberKey team_id user_id m) ≤ 1 :=
      le_trans (List.countP_mono_left (fun x _ hx => by
        simp only [Bool.and_eq_true] at hx
        exact hx.2)) (hKU team_id user_id)
    rw [ownerRows_length] at h2
    rw [hcount]
    omega
  · have hsame : members.countP (fun m =>
        (m.team_id == team_id && m.is_owner) && !(memberKey team_id user_id m))
        = members.countP (fun m => m.team_id == team_id && m.is_owner) := by
      apply List.countP_congr
      intro x hx
      constructor
      · intro hx'
        rw [Bool.and_eq_true] at hx'
        exact hx'.1
      · intro hx'
        rw [Bool.and_eq_true, Bool.not_eq_true']
        refine ⟨hx', ?_⟩
        by_contra hk
        rw [Bool.not_eq_false] at hk
        have hxeq : x = tm := countP_le_one_eq (hKU team_id user_id) hx hk htm_mem htm_key
        subst hxeq
        rw [Bool.and_eq_true] at hx'
        exact howner hx'.2
    rw [hcount, hsame, ← ownerRows_length]
    exact hpos

/-- One batch-removal iteration preserves key uniqueness and a positive
owner count of the team. -/
theorem batchRemoveStep_preserves (users : List User) (team_id : Nat)
    (acc : List TeamMember × List String × List (String × String)) (x : String)
    (hKU : MemberKeyUnique acc.1)
    (hpos : 1 ≤ (ownerRows acc.1 team_id).length) :
    MemberKeyUnique (batchRemoveStep users team_id acc x).1
    ∧ 1 ≤ (ownerRows (batchRemoveStep users team_id acc x).1 team_id).length := by
  obtain ⟨membersS, succ, failed⟩ := acc
  simp only [batchRemoveStep]
  cases hfind : findUserByIdentifier users x with
  | none => exact ⟨hKU, hpos⟩
  | some user =>
    dsimp only
    cases hm : membersS.find? (memberKey team_id user.id) with
    | none => exact ⟨hKU, hpos⟩
    | some team_member =>
      dsimp only
      by_cases hg : team_member.is_owner = true ∧ (ownerRows membersS team_id).length ≤ 1
      · rw [if_pos hg]
        exact ⟨hKU, hpos⟩
      · rw [if_neg hg]
        exact ⟨memberKeyUnique_filter hKU _,
          removeMember_owner_count_ge hKU hm hg hpos⟩

/-- The batch-removal fold preserves key uniqueness and a positive owner
count of the team. -/
theorem batchRemove_fold_preserves (users : List User) (team_id : Nat)
    (ids : List String) :
    ∀ acc, MemberKeyUnique acc.1 → 1 ≤ (ownerRows acc.1 team_id).length →
      MemberKeyUnique ((ids.foldl (batchRemoveStep users team_id) acc).1)
      ∧ 1 ≤ (ownerRows ((ids.foldl (batchRemoveStep users team_id) acc).1) team_id).length := by
  induction ids with
  | nil => exact fun acc h1 h2 => ⟨h1, h2⟩
  | cons x t ih =>
    intro acc h1 h2
    obtain ⟨h1', h2'⟩ := batchRemoveStep_preserves users team_id acc x h1 h2
    exact ih _ h1' h2'

/-- The batch-removal step has the per-item shape. -/
theorem batchRemoveStep_shape (users : List User) (team_id : Nat) :
    BatchStepShape (batchRemoveStep users team_id) := by
  intro acc x
  obtain ⟨membersS, succ, failed⟩ := acc
  simp only [batchRemoveStep]
  cases hfind : findUserByIdentifier users x with
  | none => exact Or.inl ⟨"User not found", rfl⟩
  | some user =>
    dsimp only
    cases hm : membersS.find? (memberKey team_id user.id) with
    | none => exact Or.inl ⟨"User is not a member of this team", rfl⟩
    | some team_member =>
      dsimp only
      by_cases hg : team_member.is_owner = true ∧ (ownerRows membersS team_id).length ≤ 1
      · rw [if_pos hg]
        exact Or.inl ⟨"Cannot remove the last owner from the team", rfl⟩
      · rw [if_neg hg]
        exact Or.inr rfl

/-- The team batch-add step has the per-item shape. -/
theorem batchAddTeamStep_shape (users : List User)
    (orgLinks : List OrganizationMemberLink) (team_id : Nat)
    (organization_id : Option Nat) (is_owner : Bool) :
    BatchStepShape (batchAddTeamStep users orgLinks team_id organization_id is_owner) := by
  intro acc x
  obtain ⟨membersS, succ, failed⟩ := acc
  simp only [batchAddTeamStep]
  cases hfind : findUserByIdentifier users x with
  | none => exact Or.inl ⟨"User not found", rfl⟩
  | some user =>
    dsimp only
    by_cases horg : (match organization_id with
      | none => true
      | some org_id =>
        orgLinks.any (fun l => l.organization_id == org_id && l.user_id == user.id)) = true
    · by_cases hmem : membersS.any (fun m => m.team_id == team_id && m.user_id == user.id) = true
      · simp only [horg, hmem, Bool.not_true, Bool.false_eq_true, if_false, if_true]
        exact Or.inl ⟨"User is already a member of this team", rfl⟩
      · simp only [horg, Bool.not_true, Bool.false_eq_true, if_false,
          Bool.not_eq_true] at hmem ⊢
        rw [if_neg (by simp [hmem])]
        exact Or.inr rfl
    · simp only [Bool.not_eq_true] at horg
      rw [if_pos (by simp [horg])]
      exact Or.inl ⟨"User must be a member of the organization of the team before being added to the team", rfl⟩

/-- The organization batch-add step has the per-item shape. -/
theorem batchAddOrgStep_shape (users : List User) (organization : Organization) :
    BatchStepShape (batchAddOrgStep users organization) := by
  intro acc x
  obtain ⟨linksS, succ, failed⟩ := acc
  simp only [batchAddOrgStep]
  cases hfind : findUserByIdentifier users x with
  | none => exact Or.inl ⟨"User not found", rfl⟩
  | some user =>
    dsimp only
    by_cases hmem : linksS.any (fun l =>
        l.organization_id == organization.id && l.user_id == user.id) = true
    · rw [if_pos hmem]
      exact Or.inl ⟨"User is already a member of this organization", rfl⟩
    · rw [if_neg hmem]
      exact Or.inr rfl

/-- A principal produced by get_user carries the username it was resolved
for. -/
theorem get_user_username {users : List User} {roles : List Role}
    {rolePerms : List RolePermission} {perms : List Permission}
    {username : String} {au : AuthUser}
    (h : get_user users roles rolePerms perms username = .ok au) :
    au.username = username := by
  unfold get_user at h
  cases hh : (userRoleRows users roles username).head? with
  | none =>
    rw [hh] at h
    cases h
  | some pr =>
    obtain ⟨u, r⟩ := pr
    rw [hh] at h
    have hmem := List.mem_of_mem_head? hh
    simp only [userRoleRows, List.mem_flatMap, List.mem_map, List.mem_filter] at hmem
    obtain ⟨u', ⟨_, hname⟩, r', _, heq⟩ := hmem
    have hu : u' = u := congrArg Prod.fst heq
    subst hu
    simp only [Except.ok.injEq] at h
    subst h
    simpa using hname

/-! ### Concrete fixtures used by witnesses and counterexamples -/

/-- A user with an assigned role. -/
def aliceRow : User :=
  { id := 1, username := "alice", email := "alice@x.com", hashed_password := "h",
    full_name := none, is_active := true, role_id := some 1 }

/-- A user with no assigned role, as the signup endpoint creates them. -/
def bobRow : User :=
  { id := 2, username := "bob", email := "bob@x.com", hashed_password := "h",
    full_name := none, is_active := true, role_id := none }

/-- A role row. -/
def roleUser : Role := { id := 1, name := "user", description := none }

/-- The principal corresponding to aliceRow with an empty permission list. -/
def auAlice : AuthUser :=
  { username := "alice", hashed_password := "h", email := some "alice@x.com",
    full_name := none, disabled := false, permissions := [] }

/-- An authenticated superadmin principal. -/
def superAuth : AuthUser :=
  { username := "alice", hashed_password := "h", email := some "alice@x.com",
    full_name := none, disabled := false,
    permissions := ["team.superadmin", "build.superadmin"] }

/-- A team with max_builds = 1. -/
def team1 : Team :=
  { id := 1, name := "t1", description := none, organization_id := none,
    max_builds := 1 }

/-- A stored build of team 1. -/
def build1 : Build :=
  { id := 1, name := "b1", version := "1.0", path := "builds/team_1/old",
    size := 0, short_id := "oldid1", created_at := 10, updated_at := 10,
    created_by := 1, team_id := 1 }

/-- A disabled principal holding every build permission. -/
def disabledPrincipal : AuthUser :=
  { username := "d", hashed_password := "h", email := none, full_name := none,
    disabled := true, permissions := ["build.create", "build.superadmin"] }

/-- An enabled principal holding build.create. -/
def enabledPrincipal : AuthUser :=
  { username := "e", hashed_password := "h", email := none, full_name := none,
    disabled := false, permissions := ["build.create"] }

/-! ### Claim theorems -/

/-- Claim C4: the spec says permission resolution fails NotFound exactly when
no User row with the username exists, and an existing User with no Role
resolves to an empty permission set.  The code disagrees: get_user performs
an inner join on User.role_id == Role.id, so an existing user whose role_id
is NULL (here bob, exactly as the signup endpoint creates users) yields no
joined row and is reported NotFound even though the row exists. -/
theorem c4_roleless_user_resolution_bug :
    get_user [bobRow] [roleUser] [] [] "bob"
      = .error (.notFound ("User not found: bob"))
    ∧ [bobRow].any (fun u => u.username == "bob") = true :=
  ⟨rfl, rfl⟩

/-- Claim C5 counterexample: a disabled principal holding every required
permission is denied by the gate with the status 400 Inactive-user error,
not with a 403 Forbidden as the claim states for every denial. -/
theorem c5_disabled_denial_is_400 :
    accessGate ["build.create", "build.superadmin"] disabledPrincipal
      = .error .inactiveUser
    ∧ ApiError.inactiveUser.status = 400
    ∧ ApiError.inactiveUser.status ≠ 403 :=
  ⟨rfl, rfl, by decide⟩

/-- Claim C5 (amended): the access gate denies a disabled principal with the
400 Inactive-user error regardless of its permission set; an enabled
principal is allowed exactly when the intersection of the required set and
its permission set is non-empty (OR semantics), and otherwise denied with
403 Forbidden. -/
theorem c5_access_gate_semantics (required : List String) (u : AuthUser) :
    (u.disabled = true → accessGate required u = .error .inactiveUser)
    ∧ (u.disabled = false →
        ((accessGate required u = .ok ()) ↔ ∃ p ∈ required, p ∈ u.permissions)
        ∧ ((¬ ∃ p ∈ required, p ∈ u.permissions) →
            accessGate required u = .error (.forbidden "Operation not permitted")
            ∧ (ApiError.forbidden "Operation not permitted").status = 403)) := by
  have hbool : (required.any (fun perm => u.permissions.contains perm) = true)
      ↔ ∃ p ∈ required, p ∈ u.permissions := by
    rw [List.any_eq_true]
    constructor
    · rintro ⟨p, hp, hc⟩
      exact ⟨p, hp, List.elem_iff.mp hc⟩
    · rintro ⟨p, hp, hc⟩
      exact ⟨p, hp, List.elem_iff.mpr hc⟩
  constructor
  · intro hd
    simp [accessGate, get_current_active_user, hd]
  · intro hd
    have hgate : accessGate required u = permissionCheck required u := by
      simp [accessGate, get_current_active_user, hd]
    constructor
    · rw [hgate]
      unfold permissionCheck
      by_cases hany : required.any (fun perm => u.permissions.contains perm) = true
      · rw [if_pos hany]
        simp only [true_iff]
        exact hbool.mp hany
      · rw [if_neg hany]
        constructor
        · intro h
          cases h
        · intro h
          exact absurd (hbool.mpr h) hany
    · intro hno
      have hany : ¬(required.any (fun perm => u.permissions.contains perm) = true) :=
        fun h => hno (hbool.mp h)
      rw [hgate]
      unfold permissionCheck
      rw [if_neg hany]
      exact ⟨rfl, rfl⟩

/-- Claim C5 witness: an enabled principal holding build.create is allowed
for the required set of the build-creation route. -/
theorem c5_access_gate_semantics_witness :
    accessGate ["build.create", "build.superadmin"] enabledPrincipal = .ok () := by
  have h := (c5_access_gate_semantics ["build.create", "build.superadmin"]
    enabledPrincipal).2 rfl
  exact h.1.mpr ⟨"build.create", by simp, by simp [enabledPrincipal]⟩

/-- Claim C8: for an explicit build deletion on an existing build by an
authorized requester, the outcome is the same for every object-storage
oracle: the call succeeds, the build row is deleted from the table, and the
storage deletion of the build path was attempted (its failure being only
logged). -/
theorem c8_delete_build_best_effort (users : List User) (members : List TeamMember)
    (builds : List Build) (cu : AuthUser) (build_id : Nat)
    (storageDelete : String → Bool) (b : Build) (user : User)
    (hfind : builds.find? (fun x => x.id == build_id) = some b)
    (huser : findUserByUsername users cu.username = some user)
    (hauth : (check_user_team_membership members user.id b.team_id
        || cu.permissions.contains "build.superadmin") = true) :
    delete_build users members builds cu build_id storageDelete
      = ⟨.ok (), removeBuildById builds build_id, [b.path]⟩ := by
  unfold delete_build
  rw [hfind]
  dsimp only
  rw [huser]
  dsimp only
  simp only [hauth, Bool.not_true, Bool.false_eq_true, if_false]

/-- Claim C8 witness: deleting build 1 with a failing storage oracle still
succeeds and removes the row. -/
theorem c8_delete_build_best_effort_witness :
    delete_build [aliceRow] [⟨1, 1, true⟩] [build1] superAuth 1 (fun _ => false)
      = ⟨.ok (), removeBuildById [build1] 1, [build1.path]⟩ :=
  c8_delete_build_best_effort [aliceRow] [⟨1, 1, true⟩] [build1] superAuth 1
    (fun _ => false) build1 aliceRow rfl rfl rfl

/-- Claim C6: every allocated short id is a 6 character alphanumeric string
distinct from every existing short id and produced by one of the first 100
attempts; the allocator returns none (AllocationExhausted) exactly when all
100 candidates collide with existing ids. -/
theorem c6_short_id_allocator (draws : Nat → List Nat) (existing : List String) :
    (∀ s, generate_unique_short_id draws existing = some s →
        s.length = 6
        ∧ (∀ c ∈ s.data, c ∈ asciiAlphabet)
        ∧ s ∉ existing
        ∧ ∃ k, k < 100 ∧ s = generate_short_id (draws k) 6)
    ∧ (generate_unique_short_id draws existing = none ↔
        ∀ k, k < 100 → generate_short_id (draws k) 6 ∈ existing) := by
  have hlen62 : asciiAlphabet.length = 62 := by decide
  have hlen : ∀ d n, (generate_short_id d n).length = n := by
    intro d n
    show ((List.range n).map _).length = n
    rw [List.length_map, List.length_range]
  have halpha : ∀ d n, ∀ c ∈ (generate_short_id d n).data, c ∈ asciiAlphabet := by
    intro d n c hc
    have hc' : c ∈ (List.range n).map (fun i => asciiAlphabet.getD (d.getD i 0 % 62) 'a') := hc
    rw [List.mem_map] at hc'
    obtain ⟨i, _, hci⟩ := hc'
    have hmod : d.getD i 0 % 62 < asciiAlphabet.length := by
      rw [hlen62]
      exact Nat.mod_lt _ (by decide)
    rw [← hci, List.getD_eq_getElem asciiAlphabet 'a' hmod]
    exact List.getElem_mem hmod
  constructor
  · intro s h
    unfold generate_unique_short_id at h
    obtain ⟨k, hk, hfk⟩ := List.exists_of_findSome?_eq_some h
    rw [List.mem_range] at hk
    dsimp only at hfk
    by_cases hmem : generate_short_id (draws k) 6 ∈ existing
    · rw [if_pos hmem] at hfk
      cases hfk
    · rw [if_neg hmem] at hfk
      cases hfk
      exact ⟨hlen _ _, halpha _ _, hmem, k, hk, rfl⟩
  · unfold generate_unique_short_id
    rw [List.findSome?_eq_none_iff]
    constructor
    · intro h k hk
      have := h k (List.mem_range.mpr hk)
      dsimp only at this
      by_cases hmem : generate_short_id (draws k) 6 ∈ existing
      · exact hmem
      · rw [if_neg hmem] at this
        cases this
    · intro h x hx
      dsimp only
      rw [if_pos (h x (List.mem_range.mp hx))]

/-- Claim C6 witness: with a constant random stream and no existing builds,
the allocator returns the string abcdef, which the theorem certifies as a
6 character alphanumeric id, fresh, and produced within 100 attempts. -/
theorem c6_short_id_allocator_witness :
    generate_unique_short_id (fun _ => [0, 1, 2, 3, 4, 5]) [] = some "abcdef"
    ∧ ("abcdef".length = 6
        ∧ (∀ c ∈ "abcdef".data, c ∈ asciiAlphabet)
        ∧ "abcdef" ∉ ([] : List String)
        ∧ ∃ k, k < 100
            ∧ "abcdef" = generate_short_id ((fun _ => [0, 1, 2, 3, 4, 5]) k) 6) := by
  have halloc : generate_unique_short_id (fun _ => [0, 1, 2, 3, 4, 5]) []
      = some "abcdef" := by rfl
  exact ⟨halloc,
    (c6_short_id_allocator (fun _ => [0, 1, 2, 3, 4, 5]) []).1 "abcdef" halloc⟩

/-- Claim C7 (amended): a token issued for a subject validates to that
subject (the resolved principal) while the current time has not passed the
embedded expiry; once the expiry has passed, validation fails, but with the
same 401 credentials error that a token signed with the wrong key produces
(PyJWT raises ExpiredSignatureError, a subclass of InvalidTokenError, and
get_current_user catches InvalidTokenError), not with a distinct Expired
error. -/
theorem c7_token_roundtrip (users : List User) (roles : List Role)
    (rolePerms : List RolePermission) (perms : List Permission)
    (sub key : String) (t0 ttl now : Nat) (au : AuthUser)
    (huser : get_user users roles rolePerms perms sub = .ok au) :
    (now ≤ t0 + ttl →
      get_current_user users roles rolePerms perms
          (create_access_token (some sub) (some ttl) t0 key) key now = .ok au
      ∧ au.username = sub)
    ∧ (t0 + ttl < now →
      get_current_user users roles rolePerms perms
          (create_access_token (some sub) (some ttl) t0 key) key now
        = .error .credentials
      ∧ ∀ (p : JwtPayload) (badKey : String), badKey ≠ key →
          get_current_user users roles rolePerms perms
              (jwtEncode p badKey) key now
            = .error .credentials) := by
  constructor
  · intro hle
    have hnotlt : ¬(t0 + ttl < now) := Nat.not_lt.mpr hle
    constructor
    · simp only [get_current_user, create_access_token, jwtEncode, jwtDecode,
        Option.getD_some, ne_eq, not_true_eq_false, if_false, if_neg hnotlt]
      exact huser
    · exact get_user_username huser
  · intro hlt
    constructor
    · simp only [get_current_user, create_access_token, jwtEncode, jwtDecode,
        Option.getD_some, ne_eq, not_true_eq_false, if_false, if_pos hlt]
    · intro p badKey hbk
      have hne : (badKey, p) ≠ (key, p) := by
        simp only [ne_eq, Prod.mk.injEq, not_and]
        exact fun h => absurd h hbk
      simp only [get_current_user, jwtEncode, jwtDecode, if_pos hne]

/-- Claim C7 witness: for the subject alice resolved against a one-user
database, a token with ttl 100 issued at time 0 validates at time 50 to the
alice principal. -/
theorem c7_token_roundtrip_witness :
    get_current_user [aliceRow] [roleUser] [] []
        (create_access_token (some "alice") (some 100) 0 "k") "k" 50 = .ok auAlice
    ∧ auAlice.username = "alice" :=
  (c7_token_roundtrip [aliceRow] [roleUser] [] [] "alice" "k" 0 100 50 auAlice
    rfl).1 (by omega)

/-- Claim C7 counterexample: at time 11 an expired token (issued at 0 with
ttl 10) and a token signed with the wrong key fail get_current_user with the
very same credentials error, so the expiry failure is not distinct from the
invalid-token failure. -/
theorem c7_expired_equals_invalid :
    get_current_user [] [] [] []
        (create_access_token (some "alice") (some 10) 0 "k") "k" 11
      = .error .credentials
    ∧ get_current_user [] [] [] []
        (jwtEncode { sub := some "alice", exp := 1000 } "bad") "k" 11
      = .error .credentials :=
  ⟨rfl, rfl⟩

/-- Claim C2: with the cap met and no override, create_build fails with the
409 QuotaExceeded error carrying the current count and max_builds, leaving
the build table untouched and requesting no storage deletion; and a
successful non-override create never leaves the team above its cap. -/
theorem c2_quota_exceeded (teams : List Team) (users : List User)
    (members : List TeamMember) (builds : List Build) (cu : AuthUser)
    (bc : BuildCreate) (sd : String → Bool) (presign : Bool)
    (draws : Nat → List Nat) (now fid : Nat) (sfx : String)
    (team : Team) (user : User)
    (hteam : findTeam teams bc.team_id = some team)
    (huser : findUserByUsername users cu.username = some user)
    (hauth : (check_user_team_membership members user.id bc.team_id
        || cu.permissions.contains "build.superadmin") = true) :
    (team.max_builds ≤ (teamBuilds builds bc.team_id).length →
      create_build teams users members builds cu bc false sd presign draws now fid sfx
        = ⟨.error (.quotaExceeded (teamBuilds builds bc.team_id).length team.max_builds),
           builds, []⟩)
    ∧ (∀ b, (create_build teams users members builds cu bc false sd presign draws now fid sfx).result
          = .ok b →
        (teamBuilds (create_build teams users members builds cu bc false sd presign draws now fid sfx).builds
          bc.team_id).length ≤ team.max_builds) := by
  constructor
  · intro hq
    unfold create_build
    rw [hteam]
    dsimp only
    rw [huser]
    dsimp only
    simp only [hauth, Bool.not_true, Bool.false_eq_true, Bool.true_eq_false,
      eq_self_iff_true, and_true, true_and, false_and, and_false, if_false, if_true]
    rw [if_pos hq]
  · intro b hb
    by_cases hq : team.max_builds ≤ (teamBuilds builds bc.team_id).length
    · exfalso
      unfold create_build at hb
      rw [hteam] at hb
      dsimp only at hb
      rw [huser] at hb
      dsimp only at hb
      simp only [hauth, Bool.not_true, Bool.false_eq_true, Bool.true_eq_false,
      eq_self_iff_true, and_true, true_and, false_and, and_false, if_false, if_true] at hb
      rw [if_pos hq] at hb
      simp at hb
    · unfold create_build at hb ⊢
      rw [hteam] at hb ⊢
      dsimp only at hb ⊢
      rw [huser] at hb ⊢
      dsimp only at hb ⊢
      simp only [hauth, Bool.not_true, Bool.false_eq_true, Bool.true_eq_false,
      eq_self_iff_true, and_true, true_and, false_and, and_false, if_false, if_true] at hb ⊢
      rw [if_neg hq] at hb ⊢
      try dsimp only at hb ⊢
      cases halloc : generate_unique_short_id draws (builds.map (fun b => b.short_id)) with
      | none =>
        rw [halloc] at hb
        simp at hb
      | some sid =>
        rw [halloc] at hb
        try dsimp only at hb ⊢
        cases presign with
        | false =>
          simp at hb
        | true =>
          rw [if_pos rfl] at hb ⊢
          try dsimp only
          rw [teamBuilds, List.filter_append]
          have : (teamBuilds builds bc.team_id).length < team.max_builds :=
            Nat.lt_of_not_le hq
          simp only [List.filter, beq_self_eq_true]
          rw [teamBuilds] at this
          simp only [List.length_append]
          simp
          omega

/-- Claim C2 witness: a team with max_builds = 1 already holding one build
rejects a non-override create with QuotaExceeded carrying counts 1 and 1. -/
theorem c2_quota_exceeded_witness :
    create_build [team1] [aliceRow] [⟨1, 1, true⟩] [build1] superAuth
        ⟨"b2", "1.0", 1⟩ false (fun _ => true) true (fun _ => [0, 1, 2, 3, 4, 5]) 20 2 "sfx"
      = ⟨.error (.quotaExceeded 1 1), [build1], []⟩ := by
  have h := (c2_quota_exceeded [team1] [aliceRow] [⟨1, 1, true⟩] [build1] superAuth
    ⟨"b2", "1.0", 1⟩ (fun _ => true) true (fun _ => [0, 1, 2, 3, 4, 5]) 20 2 "sfx"
    team1 aliceRow rfl rfl rfl).1 (by decide)
  exact h

/-- Claim C10: when the override flag is set but the team is strictly below
its cap, create_build behaves exactly as the non-override call: the whole
outcome coincides, no storage deletion is requested, and the new table is
the old one possibly extended (no pre-existing row is touched). -/
theorem c10_override_below_cap_no_eviction (teams : List Team) (users : List User)
    (members : List TeamMember) (builds : List Build) (cu : AuthUser)
    (bc : BuildCreate) (sd : String → Bool) (presign : Bool)
    (draws : Nat → List Nat) (now fid : Nat) (sfx : String)
    (team : Team) (user : User)
    (hteam : findTeam teams bc.team_id = some team)
    (huser : findUserByUsername users cu.username = some user)
    (hauth : (check_user_team_membership members user.id bc.team_id
        || cu.permissions.contains "build.superadmin") = true)
    (hlt : (teamBuilds builds bc.team_id).length < team.max_builds) :
    create_build teams users members builds cu bc true sd presign draws now fid sfx
      = create_build teams users members builds cu bc false sd presign draws now fid sfx
    ∧ (create_build teams users members builds cu bc true sd presign draws now fid sfx).storage_deletes
        = []
    ∧ ∃ rest, (create_build teams users members builds cu bc true sd presign draws now fid sfx).builds
        = builds ++ rest := by
  have hnle : ¬ team.max_builds ≤ (teamBuilds builds bc.team_id).length :=
    Nat.not_le.mpr hlt
  have hcore : create_build teams users members builds cu bc true sd presign draws now fid sfx
      = create_build teams users members builds cu bc false sd presign draws now fid sfx := by
    unfold create_build
    rw [hteam]
    dsimp only
    rw [huser]
    dsimp only
    simp only [hauth, Bool.not_true, Bool.false_eq_true, Bool.true_eq_false,
      eq_self_iff_true, and_true, true_and, false_and, and_false, if_false, if_true]
    rw [if_neg hnle]
    rw [if_neg hnle]
  refine ⟨hcore, ?_, ?_⟩
  · rw [hcore]
    unfold create_build
    rw [hteam]
    dsimp only
    rw [huser]
    dsimp only
    simp only [hauth, Bool.not_true, Bool.false_eq_true, Bool.true_eq_false,
      eq_self_iff_true, and_true, true_and, false_and, and_false, if_false, if_true]
    rw [if_neg hnle]
    cases halloc : generate_unique_short_id draws (builds.map (fun b => b.short_id)) with
    | none => rfl
    | some sid =>
      cases presign with
      | false => rfl
      | true => rfl
  · rw [hcore]
    unfold create_build
    rw [hteam]
    dsimp only
    rw [huser]
    dsimp only
    simp only [hauth, Bool.not_true, Bool.false_eq_true, Bool.true_eq_false,
      eq_self_iff_true, and_true, true_and, false_and, and_false, if_false, if_true]
    rw [if_neg hnle]
    cases halloc : generate_unique_short_id draws (builds.map (fun b => b.short_id)) with
    | none => exact ⟨[], (List.append_nil builds).symm⟩
    | some sid =>
      cases presign with
      | false => exact ⟨_, rfl⟩
      | true => exact ⟨_, rfl⟩

/-- Claim C10 witness: with one build stored and max_builds raised to 5, an
override create coincides with a non-override create. -/
theorem c10_override_below_cap_no_eviction_witness :
    create_build [{ team1 with max_builds := 5 }] [aliceRow] [⟨1, 1, true⟩] [build1]
        superAuth ⟨"b2", "1.0", 1⟩ true (fun _ => true) true
        (fun _ => [0, 1, 2, 3, 4, 5]) 20 2 "sfx"
      = create_build [{ team1 with max_builds := 5 }] [aliceRow] [⟨1, 1, true⟩] [build1]
        superAuth ⟨"b2", "1.0", 1⟩ false (fun _ => true) true
        (fun _ => [0, 1, 2, 3, 4, 5]) 20 2 "sfx" :=
  (c10_override_below_cap_no_eviction [{ team1 with max_builds := 5 }] [aliceRow]
    [⟨1, 1, true⟩] [build1] superAuth ⟨"b2", "1.0", 1⟩ (fun _ => true) true
    (fun _ => [0, 1, 2, 3, 4, 5]) 20 2 "sfx" { team1 with max_builds := 5 } aliceRow
    rfl rfl rfl (by decide)).1

/-- Claim C1: an override create with the cap met selects the oldest build
of the team (minimal created_at) and asks the object store to delete its
object first; if that deletion fails the create aborts with the fatal 500
storage error and the table is unchanged (no row deleted, none inserted); if
it succeeds, the oldest row is deleted and committed before the new build is
created, so every later state extends the table with that row removed. -/
theorem c1_override_eviction (teams : List Team) (users : List User)
    (members : List TeamMember) (builds : List Build) (cu : AuthUser)
    (bc : BuildCreate) (sd : String → Bool) (presign : Bool)
    (draws : Nat → List Nat) (now fid : Nat) (sfx : String)
    (team : Team) (user : User) (ob : Build)
    (hteam : findTeam teams bc.team_id = some team)
    (huser : findUserByUsername users cu.username = some user)
    (hauth : (check_user_team_membership members user.id bc.team_id
        || cu.permissions.contains "build.superadmin") = true)
    (hcount : team.max_builds ≤ (teamBuilds builds bc.team_id).length)
    (hold : oldestBuild builds bc.team_id = some ob) :
    (ob ∈ teamBuilds builds bc.team_id
      ∧ ∀ b ∈ teamBuilds builds bc.team_id, ob.created_at ≤ b.created_at)
    ∧ (sd ob.path = false →
        create_build teams users members builds cu bc true sd presign draws now fid sfx
          = ⟨.error (.storageEvictionFailed (teamBuilds builds bc.team_id).length team.max_builds),
             builds, [ob.path]⟩)
    ∧ (sd ob.path = true →
        (create_build teams users members builds cu bc true sd presign draws now fid sfx).storage_deletes
            = [ob.path]
        ∧ (∃ rest, (create_build teams users members builds cu bc true sd presign draws now fid sfx).builds
            = removeBuildById builds ob.id ++ rest)
        ∧ ∀ nb, (create_build teams users members builds cu bc true sd presign draws now fid sfx).result
              = .ok nb →
            (create_build teams users members builds cu bc true sd presign draws now fid sfx).builds
              = removeBuildById builds ob.id ++ [nb]) := by
  refine ⟨oldestBuild_spec hold, ?_, ?_⟩
  · intro hsd
    unfold create_build
    rw [hteam]
    dsimp only
    rw [huser]
    dsimp only
    simp only [hauth, Bool.not_true, Bool.false_eq_true, Bool.true_eq_false,
      eq_self_iff_true, and_true, true_and, false_and, and_false, if_false, if_true]
    rw [if_pos hcount, hold]
    dsimp only
    simp only [hsd, Bool.false_eq_true, if_false]
  · intro hsd
    refine ⟨?_, ?_, ?_⟩
    · unfold create_build
      rw [hteam]
      dsimp only
      rw [huser]
      dsimp only
      simp only [hauth, Bool.not_true, Bool.false_eq_true, Bool.true_eq_false,
        eq_self_iff_true, and_true, true_and, false_and, and_false, if_false, if_true]
      rw [if_pos hcount, hold]
      dsimp only
      simp only [hsd, if_true]
      cases halloc : generate_unique_short_id draws
          ((removeBuildById builds ob.id).map (fun b => b.short_id)) with
      | none => rfl
      | some sid =>
        cases presign with
        | false => rfl
        | true => rfl
    · unfold create_build
      rw [hteam]
      dsimp only
      rw [huser]
      dsimp only
      simp only [hauth, Bool.not_true, Bool.false_eq_true, Bool.true_eq_false,
        eq_self_iff_true, and_true, true_and, false_and, and_false, if_false, if_true]
      rw [if_pos hcount, hold]
      dsimp only
      simp only [hsd, if_true]
      cases halloc : generate_unique_short_id draws
          ((removeBuildById builds ob.id).map (fun b => b.short_id)) with
      | none => exact ⟨[], (List.append_nil _).symm⟩
      | some sid =>
        cases presign with
        | false => exact ⟨_, rfl⟩
        | true => exact ⟨_, rfl⟩
    · intro nb hnb
      unfold create_build at hnb ⊢
      rw [hteam] at hnb ⊢
      dsimp only at hnb ⊢
      rw [huser] at hnb ⊢
      dsimp only at hnb ⊢
      simp only [hauth, Bool.not_true, Bool.false_eq_true, Bool.true_eq_false,
        eq_self_iff_true, and_true, true_and, false_and, and_false, if_false, if_true] at hnb ⊢
      rw [if_pos hcount, hold] at hnb ⊢
      dsimp only at hnb ⊢
      simp only [hsd, if_true] at hnb ⊢
      cases halloc : generate_unique_short_id draws
          ((removeBuildById builds ob.id).map (fun b => b.short_id)) with
      | none =>
        rw [halloc] at hnb
        simp at hnb
      | some sid =>
        rw [halloc] at hnb
        try dsimp only at hnb ⊢
        cases presign with
        | false =>
          simp at hnb
        | true =>
          rw [if_pos rfl] at hnb ⊢
          dsimp only at hnb
          rw [Except.ok.injEq] at hnb
          rw [← hnb]

/-- Claim C1 witness: team 1 with max_builds = 1 holds build1; an override
create with a succeeding storage oracle evicts build1 (its path is the one
storage delete) and every resulting table extends the table without it. -/
theorem c1_override_eviction_witness :
    (build1 ∈ teamBuilds [build1] 1
      ∧ ∀ b ∈ teamBuilds [build1] 1, build1.created_at ≤ b.created_at)
    ∧ (create_build [team1] [aliceRow] [⟨1, 1, true⟩] [build1] superAuth
        ⟨"b2", "1.0", 1⟩ true (fun _ => true) true
        (fun _ => [0, 1, 2, 3, 4, 5]) 20 2 "sfx").storage_deletes = [build1.path] := by
  have h := c1_override_eviction [team1] [aliceRow] [⟨1, 1, true⟩] [build1] superAuth
    ⟨"b2", "1.0", 1⟩ (fun _ => true) true (fun _ => [0, 1, 2, 3, 4, 5]) 20 2 "sfx"
    team1 aliceRow build1 rfl rfl rfl (by decide) rfl
  exact ⟨h.1, (h.2.2 rfl).1⟩

/-- Claim C3 counterexample: removing the sole owner of team 1 by a
superadmin fails, but with the 400 BadRequest error Cannot remove the last
owner from the team, not with a 403 Forbidden as the claim states. -/
theorem c3_last_owner_400_not_403 :
    remove_user_from_team [team1] [aliceRow, bobRow] [⟨1, 2, true⟩] superAuth 1 2
      = ⟨.error (.badRequest "Cannot remove the last owner from the team"),
         [⟨1, 2, true⟩]⟩
    ∧ (ApiError.badRequest "Cannot remove the last owner from the team").status = 400
    ∧ (ApiError.badRequest "Cannot remove the last owner from the team").status ≠ 403 :=
  ⟨rfl, rfl, by decide⟩

/-- Claim C3 (amended): with unique membership keys, a team whose owner
count is positive keeps it positive under both the single removal handler
and the batch removal handler; removing the sole remaining owner through
the single handler fails with the 400 BadRequest last-owner error leaving
the table unchanged, and the batch loop records the same situation as a
per-item failure with the table and the sibling processing untouched. -/
theorem c3_last_owner_guard (teams : List Team) (users : List User)
    (members : List TeamMember) (cu : AuthUser) (team_id user_id : Nat)
    (identifiers : List String)
    (hKU : MemberKeyUnique members)
    (hpos : 1 ≤ (ownerRows members team_id).length) :
    1 ≤ (ownerRows (remove_user_from_team teams users members cu team_id user_id).members
          team_id).length
    ∧ (∀ team cudb target tm,
        findTeam teams team_id = some team →
        findUserByUsername users cu.username = some cudb →
        (cu.permissions.contains "team.superadmin"
          || check_user_team_ownership members cudb.id team_id) = true →
        findUserById users user_id = some target →
        members.find? (memberKey team_id user_id) = some tm →
        tm.is_owner = true → (ownerRows members team_id).length ≤ 1 →
        remove_user_from_team teams users members cu team_id user_id
          = ⟨.error (.badRequest "Cannot remove the last owner from the team"), members⟩)
    ∧ 1 ≤ (ownerRows (batch_remove_users_from_team teams users members cu team_id identifiers).members
          team_id).length
    ∧ (∀ (membersS : List TeamMember) (succ : List String)
          (failed : List (String × String)) (ident : String) (u : User) (tm : TeamMember),
        findUserByIdentifier users ident = some u →
        membersS.find? (memberKey team_id u.id) = some tm →
        tm.is_owner = true → (ownerRows membersS team_id).length ≤ 1 →
        batchRemoveStep users team_id (membersS, succ, failed) ident
          = (membersS, succ,
             failed ++ [(ident, "Cannot remove the last owner from the team")])) := by
  refine ⟨?_, ?_, ?_, ?_⟩
  · unfold remove_user_from_team
    cases h1 : findTeam teams team_id with
    | none => exact hpos
    | some team =>
      dsimp only
      cases h2 : findUserByUsername users cu.username with
      | none => exact hpos
      | some cudb =>
        dsimp only
        by_cases h3 : (cu.permissions.contains "team.superadmin"
            || check_user_team_ownership members cudb.id team_id) = true
        · simp only [h3, Bool.not_true, Bool.false_eq_true, if_false]
          cases h4 : findUserById users user_id with
          | none => exact hpos
          | some target =>
            dsimp only
            cases h5 : members.find? (memberKey team_id user_id) with
            | none => exact hpos
            | some tm =>
              dsimp only
              by_cases h6 : tm.is_owner = true ∧ (ownerRows members team_id).length ≤ 1
              · rw [if_pos h6]
                exact hpos
              · rw [if_neg h6]
                exact removeMember_owner_count_ge hKU h5 h6 hpos
        · simp only [Bool.not_eq_true] at h3
          simp only [h3, Bool.not_false, if_true]
          exact hpos
  · intro team cudb target tm h1 h2 h3 h4 h5 howner hle
    unfold remove_user_from_team
    rw [h1]
    dsimp only
    rw [h2]
    dsimp only
    simp only [h3, Bool.not_true, Bool.false_eq_true, if_false]
    rw [h4]
    dsimp only
    rw [h5]
    dsimp only
    rw [if_pos ⟨howner, hle⟩]
  · unfold batch_remove_users_from_team
    cases h1 : findTeam teams team_id with
    | none => exact hpos
    | some team =>
      dsimp only
      cases h2 : findUserByUsername users cu.username with
      | none => exact hpos
      | some cudb =>
        dsimp only
        by_cases h3 : (cu.permissions.contains "team.superadmin"
            || check_user_team_ownership members cudb.id team_id) = true
        · simp only [h3, Bool.not_true, Bool.false_eq_true, if_false]
          exact (batchRemove_fold_preserves users team_id identifiers
            (members, [], []) hKU hpos).2
        · simp only [Bool.not_eq_true] at h3
          simp only [h3, Bool.not_false, if_true]
          exact hpos
  · intro membersS succ failed ident u tm hfind hm howner hle
    unfold batchRemoveStep
    rw [hfind]
    dsimp only
    rw [hm]
    dsimp only
    rw [if_pos ⟨howner, hle⟩]

/-- Claim C3 witness: for team 1 with its sole owner bob, both the single
removal and a batch removal of bob leave the owner count at least one. -/
theorem c3_last_owner_guard_witness :
    1 ≤ (ownerRows (remove_user_from_team [team1] [aliceRow, bobRow] [⟨1, 2, true⟩]
            superAuth 1 2).members 1).length
    ∧ 1 ≤ (ownerRows (batch_remove_users_from_team [team1] [aliceRow, bobRow]
            [⟨1, 2, true⟩] superAuth 1 ["bob"]).members 1).length := by
  have h := c3_last_owner_guard [team1] [aliceRow, bobRow] [⟨1, 2, true⟩]
    superAuth 1 2 ["bob"]
    (fun tid uid => le_trans (List.countP_le_length _) (by decide))
    (by decide)
  exact ⟨h.1, h.2.2.1⟩

/-- Claim C9: the organization batch-add reports total_processed equal to
the input length, classifies every identifier as exactly one success or one
per-item (identifier, reason) failure (so no failure aborts the remainder);
the team batch-add behaves the same once its handler-level prechecks pass. -/
theorem c9_batch_per_item_isolation (users : List User)
    (links : List OrganizationMemberLink) (organization : Organization)
    (identifiers : List String) (teams : List Team)
    (orgLinks : List OrganizationMemberLink) (members : List TeamMember)
    (cu : AuthUser) (team_id : Nat) (is_owner : Bool) (team : Team) (cudb : User) :
    ((batch_add_users_to_organization users links organization identifiers).result.total_processed
        = identifiers.length
      ∧ (batch_add_users_to_organization users links organization identifiers).result.successful.length
          + (batch_add_users_to_organization users links organization identifiers).result.failed.length
          = identifiers.length
      ∧ (∀ pr ∈ (batch_add_users_to_organization users links organization identifiers).result.failed,
          pr.1 ∈ identifiers)
      ∧ (∀ s ∈ (batch_add_users_to_organization users links organization identifiers).result.successful,
          s ∈ identifiers))
    ∧ (findTeam teams team_id = some team →
        findUserByUsername users cu.username = some cudb →
        (cu.permissions.contains "team.superadmin"
          || check_user_team_ownership members cudb.id team_id) = true →
        ∃ r, (batch_add_users_to_team teams users orgLinks members cu team_id identifiers is_owner).result
              = .ok r
          ∧ r.total_processed = identifiers.length
          ∧ r.successful.length + r.failed.length = identifiers.length
          ∧ (∀ pr ∈ r.failed, pr.1 ∈ identifiers)
          ∧ (∀ s ∈ r.successful, s ∈ identifiers)) := by
  constructor
  · obtain ⟨hl, hs, hf⟩ := batch_fold_accounting
      (batchAddOrgStep_shape users organization) identifiers (links, [], [])
    refine ⟨rfl, ?_, ?_, ?_⟩
    · simpa using hl
    · intro pr hpr
      rcases hf pr hpr with h | h
      · cases h
      · exact h
    · intro s hs'
      rcases hs s hs' with h | h
      · cases h
      · exact h
  · intro h1 h2 h3
    obtain ⟨hl, hs, hf⟩ := batch_fold_accounting
      (batchAddTeamStep_shape users orgLinks team_id team.organization_id is_owner)
      identifiers (members, [], [])
    unfold batch_add_users_to_team
    rw [h1]
    dsimp only
    rw [h2]
    dsimp only
    simp only [h3, Bool.not_true, Bool.false_eq_true, if_false]
    refine ⟨_, rfl, rfl, ?_, ?_, ?_⟩
    · simpa using hl
    · intro pr hpr
      rcases hf pr hpr with h | h
      · cases h
      · exact h
    · intro s hs'
      rcases hs s hs' with h | h
      · cases h
      · exact h

/-- Claim C9 witness: the batch add of a, ghost, b to an organization where
ghost does not exist succeeds for a and b, fails ghost with User not found,
and reports three processed items; the team batch-add precondition instance
is discharged for a superadmin caller. -/
theorem c9_batch_per_item_isolation_witness :
    (batch_add_users_to_organization
        [{ aliceRow with id := 10, username := "ua", email := "a@x.com" },
         { aliceRow with id := 11, username := "ub", email := "b@x.com" }]
        [] ⟨1, "org", none⟩ ["a@x.com", "ghost", "b@x.com"]).result
      = { successful := ["a@x.com", "b@x.com"]
          failed := [("ghost", "User not found")]
          total_processed := 3
          successful_count := 2
          failed_count := 1 }
    ∧ ∃ r, (batch_add_users_to_team [team1]
          [aliceRow, { aliceRow with id := 10, username := "ua", email := "a@x.com" }]
          [] [⟨1, 1, true⟩] superAuth 1 ["a@x.com", "ghost"] false).result = .ok r
        ∧ r.total_processed = 2
        ∧ r.successful.length + r.failed.length = 2
        ∧ (∀ pr ∈ r.failed, pr.1 ∈ ["a@x.com", "ghost"])
        ∧ (∀ s ∈ r.successful, s ∈ ["a@x.com", "ghost"]) := by
  have h := c9_batch_per_item_isolation
    [{ aliceRow with id := 10, username := "ua", email := "a@x.com" },
     { aliceRow with id := 11, username := "ub", email := "b@x.com" }]
    [] ⟨1, "org", none⟩ ["a@x.com", "ghost", "b@x.com"] [team1] [] [⟨1, 1, true⟩]
    superAuth 1 false team1 aliceRow
  have h2 := c9_batch_per_item_isolation
    [aliceRow, { aliceRow with id := 10, username := "ua", email := "a@x.com" }]
    [] ⟨1, "org", none⟩ ["a@x.com", "ghost"] [team1] [] [⟨1, 1, true⟩]
    superAuth 1 false team1 aliceRow
  refine ⟨by rfl, ?_⟩
  have hx := h2.2 rfl rfl rfl
  simpa using hx

end GphApi

